import Mathlib

/-!
Verification development for the order-to-stock allocation engine
(architecture-patterns-with-python repository, chapter 9 service layer).

The service layer (message bus, handlers, unit of work, flask entrypoint)
is embedded directly from the Python sources
(`allocation/service_layer/messagebus.py`, `handlers.py`, `unit_of_work.py`,
`entrypoints/flask_app.py`).  The domain model (`OrderLine`, `Batch`,
`Product`) is not part of the provided sources; those definitions are
modelled from the specification (spec.md paragraphs 3 and 4.1 to 4.3) and from
the unit tests in `chapter1/src/test_batches.py` and
`chapter8/src/tests/unit/test_product.py`.

Python machine-level conventions used throughout:
* Python `None` results become `Option.none`;
* Python exceptions become explicit error values (`HandlerErr`);
* Python `set` objects of order lines become duplicate-free lists with
  insertion-order iteration (matching the membership-guarded adds below);
* Python object identity is replaced by the unique `reference` / `sku` keys
  the repository and product operations actually look things up by;
* quantities are unbounded integers, exactly as in Python.
-/

/-- An order line.  Modelled from the spec: OrderLine is an immutable value
`(order_id, sku, quantity)`; two lines are equal iff all three fields match. -/
structure OrderLine where
  orderid : String
  sku : String
  qty : Int
deriving DecidableEq

/-- The four domain event variants, embedded from
`allocation/domain/events` as used by the chapter-9 handlers:
`BatchCreated(ref, sku, qty, eta)`, `BatchQuantityChanged(ref, qty)`,
`AllocationRequired(orderid, sku, qty)`, `OutOfStock(sku)`.
Dates (`eta`) are modelled as natural-number day ordinals. -/
inductive Event where
  | batchCreated (ref sku : String) (qty : Int) (eta : Option Nat)
  | batchQuantityChanged (ref : String) (qty : Int)
  | allocationRequired (orderid sku : String) (qty : Int)
  | outOfStock (sku : String)
deriving DecidableEq

/-- A stock batch.  Modelled from the spec: `reference` (unique id), `sku`,
`purchased_quantity`, optional `eta`, and the set of allocated order lines.
The allocation set is modelled as a duplicate-free list in insertion order. -/
structure Batch where
  reference : String
  sku : String
  purchased_quantity : Int
  eta : Option Nat
  allocations : List OrderLine
deriving DecidableEq

/-- Sum of the quantities of a list of order lines. -/
def allocatedQty (ls : List OrderLine) : Int :=
  (ls.map OrderLine.qty).sum

/-- Modelled from the spec: the total quantity currently allocated to a batch. -/
def Batch.allocated_quantity (b : Batch) : Int :=
  allocatedQty b.allocations

/-- Modelled from the spec:
`available_quantity = purchased_quantity - sum(quantity of allocated lines)`. -/
def Batch.available_quantity (b : Batch) : Int :=
  b.purchased_quantity - b.allocated_quantity

/-- Modelled from the spec (4.1): true iff the line's sku matches the batch's
and `available_quantity >= line.quantity`. -/
def Batch.can_allocate (b : Batch) (l : OrderLine) : Bool :=
  b.sku == l.sku && decide (l.qty ≤ b.available_quantity)

/-- Modelled from the spec (4.1): adds the line to `allocations` if
`can_allocate`, otherwise a no-op.  Set semantics: a line already present is
not added again. -/
def Batch.allocate (b : Batch) (l : OrderLine) : Batch :=
  if b.can_allocate l then
    if l ∈ b.allocations then b
    else { b with allocations := b.allocations ++ [l] }
  else b

/-- Modelled from the spec (4.1): removes the line from `allocations` if
present; no-op otherwise. -/
def Batch.deallocate (b : Batch) (l : OrderLine) : Batch :=
  if l ∈ b.allocations then { b with allocations := b.allocations.erase l }
  else b

/-- Modelled from the spec (3, ordering): allocation-preference comparison.
A batch with no eta sorts before any batch with an eta; among batches with an
eta, earlier eta first.  Ties (both no eta, or equal etas) report `true`, so
the stable insertion sort below preserves insertion order on ties. -/
def Batch.preferLE (a b : Batch) : Bool :=
  match a.eta, b.eta with
  | none, _ => true
  | some _, none => false
  | some x, some y => x ≤ y

/-- Stable insertion into a list sorted by `Batch.preferLE`: the new element
goes after every already-placed element that compares ≤ to it. -/
def insertByPref (b : Batch) : List Batch → List Batch
  | [] => [b]
  | c :: cs => if Batch.preferLE c b then c :: insertByPref b cs else b :: c :: cs

/-- Modelled from the spec (3, ordering): the batches in allocation-preference
order, realised as a stable insertion sort (ties keep insertion order). -/
def sortBatches (bs : List Batch) : List Batch :=
  bs.foldl (fun acc b => insertByPref b acc) []

/-- A product aggregate.  Modelled from the spec:
`(sku, batches, version_number, events)`; `events` is the append-and-drain
queue of pending domain events. -/
structure Product where
  sku : String
  batches : List Batch
  version_number : Int
  events : List Event
deriving DecidableEq

/-- Replace (in place) the first batch with the given reference.  This models
Python's mutation of the batch object found by reference. -/
def updateBatch : List Batch → String → (Batch → Batch) → List Batch
  | [], _, _ => []
  | b :: bs, ref, f =>
    if b.reference == ref then f b :: bs else b :: updateBatch bs ref f

/-- Modelled from the spec (4.2): select the first batch in
allocation-preference order that can allocate the line; if found, allocate the
line on that batch, increment `version_number` and return its reference;
otherwise append one `OutOfStock` event carrying the product's sku and return
nothing.  Never an error: all branches are total. -/
def Product.allocate (p : Product) (l : OrderLine) : Option String × Product :=
  match (sortBatches p.batches).find? (fun b => b.can_allocate l) with
  | some b =>
      (some b.reference,
       { p with
           batches := updateBatch p.batches b.reference (fun c => c.allocate l),
           version_number := p.version_number + 1 })
  | none =>
      (none, { p with events := p.events ++ [Event.outOfStock p.sku] })

/-- Modelled from the spec (4.3): the deallocation loop.  While the batch's
available quantity (`purchased - allocatedQty allocs`) is negative, deallocate
one allocated line (deterministically: the front of the list).  Returns
`(remaining allocations, deallocated lines in order)`.  The spec leaves the
case of a still-negative availability with no lines left unspecified; the
loop then stops, having exhausted the allocations. -/
def deallocLoop (purchased : Int) : List OrderLine → List OrderLine × List OrderLine
  | [] => ([], [])
  | l :: rest =>
    if purchased - allocatedQty (l :: rest) < 0 then
      let p := deallocLoop purchased rest
      (p.1, l :: p.2)
    else (l :: rest, [])

/-- Modelled from the spec (4.3): locate the batch by reference (`none` models
the fatal precondition violation when absent), set its purchased quantity to
the new value, run the deallocation loop, and append one `AllocationRequired`
event per deallocated line, in deallocation order. -/
def Product.change_batch_quantity (p : Product) (ref : String) (qty : Int) :
    Option Product :=
  match p.batches.find? (fun b => b.reference == ref) with
  | none => none
  | some b =>
      let r := deallocLoop qty b.allocations
      some { p with
        batches := updateBatch p.batches ref
          (fun c => { c with purchased_quantity := qty, allocations := r.1 }),
        events := p.events ++
          r.2.map (fun l => Event.allocationRequired l.orderid l.sku l.qty) }

/-! ## Service layer

The unit-of-work / repository state.  Python's object graph (a repository
holding mutable `Product` objects, and a `seen` set of the products touched in
the current unit of work) is modelled as a list of products keyed by sku plus
the list of seen skus in first-seen order.  The chapter-9 concrete unit of
work delegates `commit`/`rollback` to an external SQLAlchemy session, outside
the core; on the in-memory object graph embedded here they have no effect, so
they appear as the identity in the handler bodies below. -/

/-- The shared unit-of-work state: the repository's products and the `seen`
skus.  Modelled from the spec (4.4): `seen` records every product returned by
`get`/`get_by_batch_reference` or passed to `add`. -/
structure State where
  repo : List Product
  seen : List String
deriving DecidableEq

/-- Add a sku to the seen list (set semantics, insertion order). -/
def addSeen (seen : List String) (sku : String) : List String :=
  if sku ∈ seen then seen else seen ++ [sku]

/-- Replace (in place) the first product with the given sku.  This models
Python's mutation of the product object found in the repository. -/
def updateProduct : List Product → String → (Product → Product) → List Product
  | [], _, _ => []
  | p :: ps, sku, f =>
    if p.sku == sku then f p :: ps else p :: updateProduct ps sku f

/-- Modelled from the spec (4.4): `get(sku)` returns the product with that sku
if present and records it in `seen`; returns nothing (and records nothing)
otherwise. -/
def repoGet (s : State) (sku : String) : Option Product × State :=
  match s.repo.find? (fun p => p.sku == sku) with
  | some p => (some p, { s with seen := addSeen s.seen sku })
  | none => (none, s)

/-- Modelled from the spec (4.4): `get_by_batch_reference(reference)` returns
the product owning a batch with that reference, recording it in `seen`. -/
def repoGetByBatchref (s : State) (ref : String) : Option Product × State :=
  match s.repo.find? (fun p => p.batches.any (fun b => b.reference == ref)) with
  | some p => (some p, { s with seen := addSeen s.seen p.sku })
  | none => (none, s)

/-- Modelled from the spec (4.4): `add(product)` stores the product and
records it in `seen`. -/
def repoAdd (s : State) (p : Product) : State :=
  { s with repo := s.repo ++ [p], seen := addSeen s.seen p.sku }

/-- The events of the product with the given sku (empty if absent). -/
def eventsOf (repo : List Product) (sku : String) : List Event :=
  match repo.find? (fun p => p.sku == sku) with
  | some p => p.events
  | none => []

/-- Inner loop of `collect_new_events` over the seen products, embedded from
`unit_of_work.py` (`for product in self.products.seen: while product.events:
yield product.events.pop(0)`): each seen product's event queue is drained
front-to-back (and emptied on the product) before moving to the next. -/
def collectFrom : List String → List Product → List Event × List Product
  | [], repo => ([], repo)
  | sku :: rest, repo =>
    match repo.find? (fun p => p.sku == sku) with
    | some p =>
        let repo' := updateProduct repo sku (fun q => { q with events := [] })
        let r := collectFrom rest repo'
        (p.events ++ r.1, r.2)
    | none => collectFrom rest repo

/-- Method `AbstractUnitOfWork.collect_new_events`, embedded from `unit_of_work.py`:
drain every seen product's event queue, in seen order, returning the drained
events and the updated state. -/
def collect_new_events (s : State) : List Event × State :=
  let r := collectFrom s.seen s.repo
  (r.1, { s with repo := r.2 })

/-- Errors a handler can raise.  `invalidSku` embeds the `InvalidSku`
exception of `handlers.py`; `attributeError` embeds Python's `AttributeError`
(e.g. calling a method on `None`) and any other unhandled fatal condition. -/
inductive HandlerErr where
  | invalidSku (sku : String)
  | attributeError
deriving DecidableEq

/-- A handler: takes an event and the shared unit-of-work state, returns its
Python return value (`Option String`: `none` embeds Python `None`) or an
error, together with the state as mutated so far. -/
abbrev Handler := Event → State → Except HandlerErr (Option String) × State

/-- Handler `handlers.add_batch`, embedded from `handlers.py`: get the product by sku,
creating and adding a fresh one (version 0, no events) when absent, then
append a new batch with the event's reference/sku/quantity/eta; commit. -/
def handler_add_batch : Handler := fun e s =>
  match e with
  | .batchCreated ref sku qty eta =>
      let g := repoGet s sku
      let s2 := match g.1 with
        | none => repoAdd g.2 ⟨sku, [], 0, []⟩
        | some _ => g.2
      let repo3 := updateProduct s2.repo sku
        (fun p => { p with batches := p.batches ++ [⟨ref, sku, qty, eta, []⟩] })
      (.ok none, { s2 with repo := repo3 })
  | _ => (.error .attributeError, s)

/-- Handler `handlers.allocate`, embedded from `handlers.py`: build the order line,
get the product by sku, raise `InvalidSku` when absent, otherwise run
`Product.allocate`, commit, and return the batch reference (or `None`). -/
def handler_allocate : Handler := fun e s =>
  match e with
  | .allocationRequired orderid sku qty =>
      let line : OrderLine := ⟨orderid, sku, qty⟩
      let g := repoGet s line.sku
      match g.1 with
      | none => (.error (.invalidSku line.sku), g.2)
      | some p =>
          let r := p.allocate line
          (.ok r.1, { g.2 with repo := updateProduct g.2.repo p.sku (fun _ => r.2) })
  | _ => (.error .attributeError, s)

/-- Handler `handlers.send_out_of_stock_notification`, embedded from `handlers.py`:
delegates to the external email collaborator (outside the core); no state
mutation, returns `None`. -/
def handler_send_out_of_stock_notification : Handler := fun e s =>
  match e with
  | .outOfStock _ => (.ok none, s)
  | _ => (.error .attributeError, s)

/-- Handler `handlers.change_batch_quantity`, embedded from `handlers.py`: get the
product by batch reference and call `Product.change_batch_quantity` on it;
commit; returns `None`.  When the lookup returns no product, the Python code
dereferences `None` (`product.change_batch_quantity(...)`), which raises
`AttributeError` — embedded as the `attributeError` value. -/
def handler_change_batch_quantity : Handler := fun e s =>
  match e with
  | .batchQuantityChanged ref qty =>
      let g := repoGetByBatchref s ref
      match g.1 with
      | none => (.error .attributeError, g.2)
      | some p =>
          match p.change_batch_quantity ref qty with
          | none => (.error .attributeError, g.2)
          | some p' =>
              (.ok none, { g.2 with repo := updateProduct g.2.repo p.sku (fun _ => p') })
  | _ => (.error .attributeError, s)

/-- The discriminant used by the handler registry (the Python `type(event)`
dictionary key). -/
inductive EventType where
  | batchCreatedT
  | batchQuantityChangedT
  | allocationRequiredT
  | outOfStockT
deriving DecidableEq

/-- The exact type of an event. -/
def Event.type : Event → EventType
  | .batchCreated _ _ _ _ => .batchCreatedT
  | .batchQuantityChanged _ _ => .batchQuantityChangedT
  | .allocationRequired _ _ _ => .allocationRequiredT
  | .outOfStock _ => .outOfStockT

/-- The `HANDLERS` registry, embedded from `messagebus.py`: the ordered list
of handlers for each event type. -/
def HANDLERS : EventType → List Handler
  | .batchCreatedT => [handler_add_batch]
  | .allocationRequiredT => [handler_allocate]
  | .outOfStockT => [handler_send_out_of_stock_notification]
  | .batchQuantityChangedT => [handler_change_batch_quantity]

/-- The inner `for handler in HANDLERS[type(event)]` loop of
`messagebus.handle`: run each handler in registration order on the shared
state; after each handler invocation collect the new events from the unit of
work.  Returns the handlers' results and the collected events (in collection
order), or propagates the first handler error. -/
def runHandlers : List Handler → Event → State →
    Except HandlerErr (List (Option String) × List Event) × State
  | [], _, s => (.ok ([], []), s)
  | h :: hs, e, s =>
    match h e s with
    | (.error err, s') => (.error err, s')
    | (.ok v, s') =>
        let c := collect_new_events s'
        match runHandlers hs e c.2 with
        | (.ok (vs, evs), s'') => (.ok (v :: vs, c.1 ++ evs), s'')
        | (.error err, s'') => (.error err, s'')

/-- Outcome of a dispatch call: the ordered results list on normal return, a
propagated handler error otherwise.  `fuelOut` is an artefact of the fuel
parameter that makes the loop structurally recursive; every theorem below
supplies enough fuel for it never to arise. -/
inductive DispatchOutcome where
  | ok (results : List (Option String))
  | err (e : HandlerErr)
  | fuelOut
deriving DecidableEq

/-- The `while queue` loop of `messagebus.handle`, embedded from
`messagebus.py`: pop the front event, run its registered handlers (appending
their results and enqueuing collected events at the back), and recurse; when
the queue is empty return the accumulated results.  A handler error
propagates immediately, abandoning the rest of the queue. -/
def handleLoop : Nat → List Event → List (Option String) → State →
    DispatchOutcome × State
  | _, [], results, s => (.ok results, s)
  | 0, _ :: _, _, s => (.fuelOut, s)
  | fuel + 1, e :: q, results, s =>
    match runHandlers (HANDLERS e.type) e s with
    | (.ok (vs, evs), s') => handleLoop fuel (q ++ evs) (results ++ vs) s'
    | (.error err, s') => (.err err, s')

/-- Function `messagebus.handle`, embedded from `messagebus.py`: dispatch the seed
event through the FIFO queue with the shared unit of work. -/
def handle (fuel : Nat) (e : Event) (s : State) : DispatchOutcome × State :=
  handleLoop fuel [e] [] s

/-! The message-bus state machine as the specification words it (spec 4.7),
to be compared with the embedded `handle`. -/

/-- A configuration of the specification's dispatch state machine: the FIFO
queue of pending events, the accumulator of handler results, and the shared
unit of work. -/
structure BusConfig where
  queue : List Event
  results : List (Option String)
  uow : State
deriving DecidableEq

/-- Modelled from the spec (4.7): invoke each handler registered for the
event, in registration order, with the event and the shared unit of work;
append each handler's return value to the results; after each handler
invocation collect the new events and append them to the back of the queue.
A failing handler aborts with its error and the state reached so far. -/
def specDispatch : List Handler → Event → BusConfig →
    Except (HandlerErr × State) BusConfig
  | [], _, c => .ok c
  | h :: hs, e, c =>
    match h e c.uow with
    | (.error err, u') => .error (err, u')
    | (.ok v, u') =>
        let col := collect_new_events u'
        specDispatch hs e
          { queue := c.queue ++ col.1, results := c.results ++ [v], uow := col.2 }

/-- One transition of the specification's state machine. -/
inductive SpecStep where
  | done (results : List (Option String)) (uow : State)
  | next (c : BusConfig)
  | failed (err : HandlerErr) (uow : State)

/-- Modelled from the spec (4.7): terminal when the queue is empty (return the
results), otherwise pop the front event and dispatch all its handlers. -/
def busStep (c : BusConfig) : SpecStep :=
  match c.queue with
  | [] => .done c.results c.uow
  | e :: rest =>
    match specDispatch (HANDLERS e.type) e { c with queue := rest } with
    | .ok c' => .next c'
    | .error (err, u) => .failed err u

/-- The specification's dispatch machine, iterated (with fuel mirroring the
embedded loop's fuel). -/
def handleSpec : Nat → BusConfig → DispatchOutcome × State
  | 0, c =>
    (match c.queue with
     | [] => (.ok c.results, c.uow)
     | _ :: _ => (.fuelOut, c.uow))
  | fuel + 1, c =>
    match busStep c with
    | .done rs u => (.ok rs, u)
    | .failed err u => (.err err, u)
    | .next c' => handleSpec fuel c'

/-- HTTP responses of the allocate endpoint (status codes abstracted):
`created` is the 201 response carrying the first result, `badRequest` the 400
response produced by the `except InvalidSku` clause, `serverError` any
uncaught exception (HTTP 500). -/
inductive HttpResponse where
  | created (batchref : Option String)
  | badRequest (message : String)
  | serverError
deriving DecidableEq

/-- Endpoint `allocate_endpoint`, embedded from `entrypoints/flask_app.py`: build the
`AllocationRequired` seed event, run `messagebus.handle`, pop the first
result as the batch reference; an `InvalidSku` escaping the bus is caught and
turned into a 400 response with the exception's message; anything else
escapes as a server error. -/
def allocate_endpoint (fuel : Nat) (orderid sku : String) (qty : Int)
    (s : State) : HttpResponse × State :=
  match handle fuel (Event.allocationRequired orderid sku qty) s with
  | (.ok results, s') =>
      match results with
      | r :: _ => (.created r, s')
      | [] => (.serverError, s')
  | (.err (.invalidSku m), s') => (.badRequest ("Invalid sku " ++ m), s')
  | (.err .attributeError, s') => (.serverError, s')
  | (.fuelOut, s') => (.serverError, s')

/-- Discriminates the `InvalidSku` error from every other handler error. -/
def HandlerErr.isInvalidSku : HandlerErr → Bool
  | .invalidSku _ => true
  | .attributeError => false

/-! ## Helper lemmas -/

theorem mem_insertByPref {a b : Batch} {l : List Batch} :
    a ∈ insertByPref b l ↔ a = b ∨ a ∈ l := by
  induction l with
  | nil => simp [insertByPref]
  | cons c cs ih =>
      by_cases h : Batch.preferLE c b
      · simp [insertByPref, h, ih]
        tauto
      · simp [insertByPref, h]

theorem mem_foldl_insertByPref {a : Batch} :
    ∀ (bs acc : List Batch),
      a ∈ bs.foldl (fun acc b => insertByPref b acc) acc ↔ a ∈ bs ∨ a ∈ acc := by
  intro bs
  induction bs with
  | nil => simp
  | cons b bs ih =>
      intro acc
      simp [List.foldl_cons, ih, mem_insertByPref]
      tauto

theorem mem_sortBatches {a : Batch} {bs : List Batch} :
    a ∈ sortBatches bs ↔ a ∈ bs := by
  simp [sortBatches, mem_foldl_insertByPref]

theorem handleLoop_ok_extends :
    ∀ (fuel : Nat) (q : List Event) (res : List (Option String)) (s : State)
      (rs : List (Option String)) (s' : State),
      handleLoop fuel q res s = (.ok rs, s') → ∃ t, rs = res ++ t := by
  intro fuel
  induction fuel with
  | zero =>
      intro q res s rs s' h
      cases q with
      | nil =>
          simp [handleLoop] at h
          exact ⟨[], by simp [h.1]⟩
      | cons e q => simp [handleLoop] at h
  | succ n ih =>
      intro q res s rs s' h
      cases q with
      | nil =>
          simp [handleLoop] at h
          exact ⟨[], by simp [h.1]⟩
      | cons e q =>
          simp only [handleLoop] at h
          split at h
          · rename_i vs evs s1 heq
            obtain ⟨t, ht⟩ := ih _ _ _ _ _ h
            exact ⟨vs ++ t, by simp [ht]⟩
          · simp at h

/-! ## Claims -/

/-- C9: `Batch.allocate` and `Batch.deallocate` are idempotent set operations:
allocating the same line twice leaves the batch (its allocations and hence its
`available_quantity`) equal to allocating it once, and deallocating a line
that was never allocated leaves the batch unchanged.  Both operations are
total functions, so neither raises. -/
theorem c9_batch_ops_idempotent (b : Batch) (l : OrderLine) :
    (b.allocate l).allocate l = b.allocate l ∧
    (l ∉ b.allocations → b.deallocate l = b) := by
  constructor
  · by_cases hca : b.can_allocate l
    · by_cases hm : l ∈ b.allocations
      · simp [Batch.allocate, hca, hm]
      · have hb' : b.allocate l = { b with allocations := b.allocations ++ [l] } := by
          simp [Batch.allocate, hca, hm]
        rw [hb']
        by_cases hca' :
            Batch.can_allocate { b with allocations := b.allocations ++ [l] } l
        · simp [Batch.allocate, hca']
        · simp [Batch.allocate, hca']
    · simp [Batch.allocate, hca]
  · intro hm
    simp [Batch.deallocate, hm]

/-- C9 witness: the `DECORATIVE-TRINKET` scenario of
`chapter1/src/test_batches.py`: a batch of 20 with an unallocated line of 2. -/
theorem c9_batch_ops_idempotent_witness :
    ((Batch.mk "batch-001" "DECORATIVE-TRINKET" 20 none []).allocate
          ⟨"order-123", "DECORATIVE-TRINKET", 2⟩).allocate
        ⟨"order-123", "DECORATIVE-TRINKET", 2⟩
      = (Batch.mk "batch-001" "DECORATIVE-TRINKET" 20 none []).allocate
          ⟨"order-123", "DECORATIVE-TRINKET", 2⟩ ∧
    (Batch.mk "batch-001" "DECORATIVE-TRINKET" 20 none []).deallocate
        ⟨"order-123", "DECORATIVE-TRINKET", 2⟩
      = Batch.mk "batch-001" "DECORATIVE-TRINKET" 20 none [] :=
  ⟨(c9_batch_ops_idempotent _ _).1,
   (c9_batch_ops_idempotent _ _).2 (by decide)⟩

/-- C7: when no batch of the product can allocate the line, `Product.allocate`
returns no batch reference and appends exactly one `OutOfStock` event carrying
the product's sku; being a total function, it never signals failure by an
exception. -/
theorem c7_out_of_stock_event (p : Product) (l : OrderLine)
    (h : ∀ b ∈ p.batches, b.can_allocate l = false) :
    p.allocate l = (none, { p with events := p.events ++ [Event.outOfStock p.sku] }) := by
  have hf : (sortBatches p.batches).find? (fun b => b.can_allocate l) = none := by
    rw [List.find?_eq_none]
    intro x hx
    simp [h x (mem_sortBatches.mp hx)]
  simp [Product.allocate, hf]

/-- C7 witness: the scenario of
`chapter8/src/tests/unit/test_product.py`: product `SMALL-FORK` with one
batch of 10 fully allocated; allocating one more unit yields no reference and
records `OutOfStock(SMALL-FORK)`. -/
theorem c7_out_of_stock_event_witness :
    (Product.mk "SMALL-FORK"
        [⟨"batch1", "SMALL-FORK", 10, none, [⟨"order1", "SMALL-FORK", 10⟩]⟩] 1 []).allocate
        ⟨"order2", "SMALL-FORK", 1⟩
      = (none,
         Product.mk "SMALL-FORK"
           [⟨"batch1", "SMALL-FORK", 10, none, [⟨"order1", "SMALL-FORK", 10⟩]⟩] 1
           [Event.outOfStock "SMALL-FORK"]) :=
  c7_out_of_stock_event _ _ (by decide)

/-- C4: an `AllocationRequired` event whose sku matches no product makes the
`allocate` handler fail with the distinguishable `InvalidSku` error (not an
allocation result); the error propagates out of the message-bus dispatch loop,
and the flask entrypoint receives it and answers 400. -/
theorem c4_invalid_sku_propagates (fuel : Nat) (orderid sku : String) (qty : Int)
    (s : State) (h : s.repo.find? (fun p => p.sku == sku) = none) :
    handle (fuel + 1) (Event.allocationRequired orderid sku qty) s
        = (.err (.invalidSku sku), s) ∧
    allocate_endpoint (fuel + 1) orderid sku qty s
        = (.badRequest ("Invalid sku " ++ sku), s) := by
  have hh : handle (fuel + 1) (Event.allocationRequired orderid sku qty) s
      = (.err (.invalidSku sku), s) := by
    simp [handle, handleLoop, HANDLERS, Event.type, runHandlers, handler_allocate,
      repoGet, h]
  exact ⟨hh, by simp [allocate_endpoint, hh]⟩

/-- C4 witness: allocating sku `NOPE` against an empty repository. -/
theorem c4_invalid_sku_propagates_witness :
    handle 3 (Event.allocationRequired "o1" "NOPE" 7) (State.mk [] [])
        = (.err (.invalidSku "NOPE"), State.mk [] []) ∧
    allocate_endpoint 3 "o1" "NOPE" 7 (State.mk [] [])
        = (.badRequest ("Invalid sku " ++ "NOPE"), State.mk [] []) :=
  c4_invalid_sku_propagates 2 "o1" "NOPE" 7 (State.mk [] []) (by rfl)

/-! Fixtures for the corrected claims C2, C3 and C5. -/

/-- A product whose single batch holds two allocated lines; the first line's
sku (`NOSKU`) matches no product in the repository, so its re-emitted
`AllocationRequired` event makes the cascade's first follow-up handler fail. -/
def demoProduct : Product :=
  ⟨"A", [⟨"b1", "A", 10, none, [⟨"o1", "NOSKU", 6⟩, ⟨"o2", "A", 5⟩]⟩], 0, []⟩

/-- Repository holding only `demoProduct`. -/
def demoState : State := ⟨[demoProduct], []⟩

/-- C2 counterexample: the concrete cascade refuting the claim.  Reducing
batch `b1` to quantity 0 deallocates both lines and enqueues two
`AllocationRequired` events (first conjunct: the seed handler succeeds and
collects exactly those two events).  The first of them fails with
`InvalidSku`, and `handle` then returns that error — it does not return a
results list at all, so the second enqueued event is never popped and handled
(second conjunct), contradicting the claim that the dispatch loop continues
and already-enqueued events are still handled before `handle` returns. -/
theorem c2_counterexample :
    (runHandlers (HANDLERS (Event.batchQuantityChanged "b1" 0).type)
        (Event.batchQuantityChanged "b1" 0) demoState).1
      = .ok ([none],
          [Event.allocationRequired "o1" "NOSKU" 6,
           Event.allocationRequired "o2" "A" 5]) ∧
    (handle 10 (Event.batchQuantityChanged "b1" 0) demoState).1
      = .err (.invalidSku "NOSKU") :=
  ⟨by rfl, by rfl⟩

/-- C2 (amended): if a handler of the event at the front of the queue fails,
its own unit-of-work scope is exited, but the dispatch loop does not
continue: `handle`'s loop immediately propagates the handler's error, and the
outcome is independent of the events still enqueued behind it (and of the
results accumulated so far) — those events are never popped or handled. -/
theorem c2_amended_failure_aborts_dispatch (fuel : Nat) (q : List Event)
    (res : List (Option String)) (s : State) (e : Event) (err : HandlerErr)
    (s' : State)
    (h : runHandlers (HANDLERS e.type) e s = (.error err, s')) :
    handleLoop (fuel + 1) (e :: q) res s = (.err err, s') := by
  simp [handleLoop, h]

/-- C2 amended witness: a failing `AllocationRequired` handler at the front of
the queue aborts the dispatch even though an `OutOfStock` event is enqueued
behind it. -/
theorem c2_amended_failure_aborts_dispatch_witness :
    runHandlers (HANDLERS (Event.allocationRequired "o1" "NOPE" 3).type)
        (Event.allocationRequired "o1" "NOPE" 3) (State.mk [] [])
      = (.error (.invalidSku "NOPE"), State.mk [] []) ∧
    handleLoop 3 [Event.allocationRequired "o1" "NOPE" 3, Event.outOfStock "X"]
        [] (State.mk [] [])
      = (.err (.invalidSku "NOPE"), State.mk [] []) :=
  ⟨by rfl,
   c2_amended_failure_aborts_dispatch 2 [Event.outOfStock "X"] [] (State.mk [] [])
     (Event.allocationRequired "o1" "NOPE" 3) (.invalidSku "NOPE")
     (State.mk [] []) (by rfl)⟩

/-- C5 counterexample: dispatching `BatchQuantityChanged` with batch reference
`zz`, which no batch carries, makes `handle` propagate an `AttributeError`
(the Python code dereferences the absent product), not the distinguishable
`InvalidSku` error the claim promises. -/
theorem c5_counterexample :
    (handle 5 (Event.batchQuantityChanged "zz" 5) demoState).1
      = .err .attributeError ∧
    HandlerErr.isInvalidSku .attributeError = false :=
  ⟨by decide, by rfl⟩

/-- C5 (amended): for every `BatchQuantityChanged` event whose batch reference
matches no known batch, the `change_batch_quantity` handler fails by
dereferencing the absent product — an `AttributeError`, not the `InvalidSku`
error of the unknown-sku case — and that error still propagates out of the
dispatch loop (and, not being `InvalidSku`, would not be caught by the
entrypoint's invalid-sku handler). -/
theorem c5_amended_unknown_batchref_attribute_error (fuel : Nat) (ref : String)
    (qty : Int) (s : State)
    (h : s.repo.find? (fun p => p.batches.any (fun b => b.reference == ref)) = none) :
    handle (fuel + 1) (Event.batchQuantityChanged ref qty) s
      = (.err .attributeError, s) := by
  simp [handle, handleLoop, HANDLERS, Event.type, runHandlers,
    handler_change_batch_quantity, repoGetByBatchref, h]

/-- C5 amended witness: batch reference `zz` is unknown to `demoState`. -/
theorem c5_amended_unknown_batchref_attribute_error_witness :
    handle 5 (Event.batchQuantityChanged "zz" 5) demoState
      = (.err .attributeError, demoState) :=
  c5_amended_unknown_batchref_attribute_error 4 "zz" 5 demoState (by rfl)

theorem handler_cbq_ok (e : Event) (s : State) :
    ∀ v s', handler_change_batch_quantity e s = (.ok v, s') → v = none := by
  intro v s' h
  cases e with
  | batchQuantityChanged ref qty =>
      simp only [handler_change_batch_quantity] at h
      split at h
      · simp at h
      · split at h
        · simp at h
        · simp at h
          exact h.1.symm
  | batchCreated ref sk qty eta => simp [handler_change_batch_quantity] at h
  | allocationRequired o sk q => simp [handler_change_batch_quantity] at h
  | outOfStock sk => simp [handler_change_batch_quantity] at h

theorem runHandlers_non_ar (e : Event) (s : State)
    (hty : e.type ≠ EventType.allocationRequiredT) :
    ∀ vs evs s', runHandlers (HANDLERS e.type) e s = (.ok (vs, evs), s') →
      vs = [none] := by
  intro vs evs s' heq
  cases e with
  | allocationRequired o sk q => exact absurd rfl hty
  | batchCreated ref sk qty eta =>
      simp [runHandlers, HANDLERS, Event.type, handler_add_batch] at heq
      exact heq.1.1.symm
  | outOfStock sk =>
      simp [runHandlers, HANDLERS, Event.type,
        handler_send_out_of_stock_notification] at heq
      exact heq.1.1.symm
  | batchQuantityChanged ref qty =>
      simp only [runHandlers, HANDLERS, Event.type] at heq
      rcases hh : handler_change_batch_quantity (Event.batchQuantityChanged ref qty) s
        with ⟨r, s1⟩
      rw [hh] at heq
      cases r with
      | error err => simp at heq
      | ok v =>
          have hv := handler_cbq_ok _ _ _ _ hh
          subst hv
          simp at heq
          exact heq.1.1.symm

/-- C10: the message bus appends one results entry per handler invocation even
for handlers that return no value: whenever `handle` returns normally for a
seed event that is not an `AllocationRequired` (that is, a `BatchCreated`,
`OutOfStock` or `BatchQuantityChanged`), the first entry of the returned
results list — the one the entrypoint reads — is `none` (Python `None`); only
an `AllocationRequired` seed can put a batch reference there. -/
theorem c10_first_result_none_for_non_allocation (fuel : Nat) (e : Event)
    (s : State) (rs : List (Option String)) (s' : State)
    (hty : e.type ≠ EventType.allocationRequiredT)
    (h : handle fuel e s = (.ok rs, s')) :
    rs.head? = some none := by
  cases fuel with
  | zero => simp [handle, handleLoop] at h
  | succ n =>
      simp only [handle, handleLoop] at h
      split at h
      · rename_i vs evs s1 heq
        have hvs := runHandlers_non_ar e s hty vs evs s1 heq
        subst hvs
        obtain ⟨t, ht⟩ := handleLoop_ok_extends _ _ _ _ _ _ h
        simp [ht]
      · simp at h

/-- C10 witness: dispatching a `BatchCreated` seed returns results whose first
entry is `none`. -/
theorem c10_first_result_none_for_non_allocation_witness :
    (Event.batchCreated "b1" "LAMP" 100 none).type ≠ EventType.allocationRequiredT ∧
    handle 3 (Event.batchCreated "b1" "LAMP" 100 none) (State.mk [] [])
      = (.ok [none],
         State.mk [⟨"LAMP", [⟨"b1", "LAMP", 100, none, []⟩], 0, []⟩] ["LAMP"]) ∧
    ([none] : List (Option String)).head? = some none :=
  ⟨by decide, by rfl,
   c10_first_result_none_for_non_allocation 3
     (Event.batchCreated "b1" "LAMP" 100 none) (State.mk [] []) [none]
     (State.mk [⟨"LAMP", [⟨"b1", "LAMP", 100, none, []⟩], 0, []⟩] ["LAMP"])
     (by decide) (by rfl)⟩

theorem specDispatch_eq (hs : List Handler) (e : Event) :
    ∀ q res u,
      specDispatch hs e ⟨q, res, u⟩ =
        match runHandlers hs e u with
        | (.ok (vs, evs), u') => .ok ⟨q ++ evs, res ++ vs, u'⟩
        | (.error err, u') => .error (err, u') := by
  induction hs with
  | nil => intro q res u; simp [specDispatch, runHandlers]
  | cons h hs ih =>
      intro q res u
      simp only [specDispatch, runHandlers]
      rcases hh : h e u with ⟨r, s'⟩
      cases r with
      | error err => simp
      | ok v =>
          simp only []
          rw [ih]
          rcases hrr : runHandlers hs e (collect_new_events s').2 with ⟨rr, s''⟩
          cases rr with
          | ok p =>
              rcases p with ⟨vs, evs⟩
              simp
          | error err => simp

theorem handleLoop_eq_handleSpec :
    ∀ (fuel : Nat) (q : List Event) (res : List (Option String)) (s : State),
      handleLoop fuel q res s = handleSpec fuel ⟨q, res, s⟩ := by
  intro fuel
  induction fuel with
  | zero => intro q res s; cases q <;> simp [handleLoop, handleSpec]
  | succ n ih =>
      intro q res s
      cases q with
      | nil => simp [handleLoop, handleSpec, busStep]
      | cons e rest =>
          simp only [handleLoop, handleSpec, busStep]
          rw [specDispatch_eq]
          rcases hr : runHandlers (HANDLERS e.type) e s with ⟨r, s'⟩
          cases r with
          | ok p =>
              rcases p with ⟨vs, evs⟩
              simp [ih]
          | error err => simp

/-- C1: for every seed event and unit-of-work state, the embedded
`messagebus.handle` coincides with the dispatch state machine the
specification describes: a FIFO queue seeded with one event, where each
transition pops the front event, invokes each handler registered for its
exact type in registration order with the shared unit of work, appends each
handler's return value to the results, appends the events collected after
each handler invocation to the back of the queue, and returns the accumulated
results (seed results first, cascaded results in generation order) once the
queue is empty. -/
theorem c1_handle_refines_spec_machine (fuel : Nat) (e : Event) (s : State) :
    handle fuel e s = handleSpec fuel ⟨[e], [], s⟩ :=
  handleLoop_eq_handleSpec fuel [e] [] s

theorem find?_updateProduct_ne {sku sku' : String} (hne : sku' ≠ sku)
    (f : Product → Product) (hf : ∀ p, (f p).sku = p.sku) :
    ∀ repo : List Product,
      (updateProduct repo sku f).find? (fun p => p.sku == sku')
        = repo.find? (fun p => p.sku == sku') := by
  intro repo
  induction repo with
  | nil => rfl
  | cons p ps ih =>
      simp only [updateProduct]
      by_cases h : p.sku = sku
      · have hb : (p.sku == sku) = true := by simp [h]
        have hp : (p.sku == sku') = false := by simp [h, Ne.symm hne]
        have hfp : ((f p).sku == sku') = false := by rw [hf]; exact hp
        simp [hb, List.find?_cons, hp, hfp]
      · have hb : (p.sku == sku) = false := by simp [h]
        by_cases hp : p.sku = sku'
        · have hpb : (p.sku == sku') = true := by simp [hp]
          simp [hb, List.find?_cons, hpb]
        · have hpb : (p.sku == sku') = false := by simp [hp]
          simp [hb, List.find?_cons, hpb, ih]

theorem eventsOf_updateProduct_ne {sku sku' : String} (hne : sku' ≠ sku)
    (f : Product → Product) (hf : ∀ p, (f p).sku = p.sku) (repo : List Product) :
    eventsOf (updateProduct repo sku f) sku' = eventsOf repo sku' := by
  simp [eventsOf, find?_updateProduct_ne hne f hf]

theorem eventsOf_clear (repo : List Product) (sku : String) :
    eventsOf (updateProduct repo sku (fun q => { q with events := [] })) sku = [] := by
  induction repo with
  | nil => rfl
  | cons p ps ih =>
      simp only [updateProduct]
      by_cases h : p.sku = sku
      · have hb : (p.sku == sku) = true := by simp [h]
        simp [hb, eventsOf, List.find?_cons, h]
      · have hb : (p.sku == sku) = false := by simp [h]
        simpa [hb, eventsOf, List.find?_cons] using ih

theorem collectFrom_preserve_empty :
    ∀ (seen : List String) (repo : List Product) (sku : String),
      eventsOf repo sku = [] → eventsOf (collectFrom seen repo).2 sku = [] := by
  intro seen
  induction seen with
  | nil => intro repo sku h; exact h
  | cons sk rest ih =>
      intro repo sku h
      simp only [collectFrom]
      cases hf : repo.find? (fun p => p.sku == sk) with
      | none => exact ih repo sku h
      | some p =>
          apply ih
          by_cases hsk : sku = sk
          · subst hsk; exact eventsOf_clear repo sku
          · rw [eventsOf_updateProduct_ne hsk
                (fun q => { q with events := [] }) (fun q => rfl)]
            exact h

theorem collectFrom_drains :
    ∀ (seen : List String) (repo : List Product) (sku : String), sku ∈ seen →
      eventsOf (collectFrom seen repo).2 sku = [] := by
  intro seen
  induction seen with
  | nil => intro repo sku h; simp at h
  | cons sk rest ih =>
      intro repo sku h
      simp only [collectFrom]
      cases hf : repo.find? (fun p => p.sku == sk) with
      | none =>
          rcases List.mem_cons.mp h with h1 | h2
          · subst h1
            have he : eventsOf repo sku = [] := by simp [eventsOf, hf]
            exact collectFrom_preserve_empty rest repo sku he
          · exact ih repo sku h2
      | some p =>
          rcases List.mem_cons.mp h with h1 | h2
          · subst h1
            exact collectFrom_preserve_empty rest _ sku (eventsOf_clear repo sku)
          · exact ih _ sku h2

theorem collectFrom_no_events :
    ∀ (seen : List String) (repo : List Product),
      (∀ sku ∈ seen, eventsOf repo sku = []) → (collectFrom seen repo).1 = [] := by
  intro seen
  induction seen with
  | nil => intro repo _; rfl
  | cons sk rest ih =>
      intro repo h
      simp only [collectFrom]
      cases hf : repo.find? (fun p => p.sku == sk) with
      | none => exact ih repo (fun sku hs => h sku (List.mem_cons_of_mem _ hs))
      | some p =>
          have hp : p.events = [] := by
            have := h sk (List.mem_cons_self _ _)
            simpa [eventsOf, hf] using this
          simp only [hp, List.nil_append]
          apply ih
          intro sku hs
          by_cases hsk : sku = sk
          · subst hsk; exact eventsOf_clear repo sku
          · rw [eventsOf_updateProduct_ne hsk
                (fun q => { q with events := [] }) (fun q => rfl)]
            exact h sku (List.mem_cons_of_mem _ hs)

theorem collectFrom_flatten :
    ∀ (seen : List String) (repo : List Product), seen.Nodup →
      (collectFrom seen repo).1 = (seen.map (eventsOf repo)).flatten := by
  intro seen
  induction seen with
  | nil => intro repo _; rfl
  | cons sk rest ih =>
      intro repo h
      rcases List.nodup_cons.mp h with ⟨hnot, hnd⟩
      have hmap :
          List.map (eventsOf (updateProduct repo sk (fun q => { q with events := [] }))) rest
            = List.map (eventsOf repo) rest := by
        apply List.map_congr_left
        intro x hx
        have hxe : x ≠ sk := fun hc => hnot (hc ▸ hx)
        exact eventsOf_updateProduct_ne hxe
          (fun q => { q with events := [] }) (fun q => rfl) repo
      simp only [collectFrom]
      cases hf : repo.find? (fun p => p.sku == sk) with
      | none =>
          have he : eventsOf repo sk = [] := by simp [eventsOf, hf]
          show (collectFrom rest repo).1 = _
          rw [List.map_cons, List.flatten_cons, he, List.nil_append, ih repo hnd]
      | some p =>
          have he : eventsOf repo sk = p.events := by simp [eventsOf, hf]
          show p.events ++
              (collectFrom rest (updateProduct repo sk (fun q => { q with events := [] }))).1
            = _
          rw [List.map_cons, List.flatten_cons, he, ih _ hnd, hmap]

/-- C6: `collect_new_events` yields, for each product in the seen set in
iteration order, that product's entire event queue front-to-back before
moving to the next product — the flattening of the per-product queues, never
interleaved (stated when the seen skus are distinct, as distinct Python
product objects are) — and a second call after full exhaustion yields no
events. -/
theorem c6_collect_new_events_drains (s : State) :
    (s.seen.Nodup →
      (collect_new_events s).1 = (s.seen.map (eventsOf s.repo)).flatten) ∧
    (collect_new_events (collect_new_events s).2).1 = [] := by
  constructor
  · intro h
    simpa [collect_new_events] using collectFrom_flatten s.seen s.repo h
  · simp only [collect_new_events]
    exact collectFrom_no_events s.seen _
      (fun sku hs => collectFrom_drains s.seen s.repo sku hs)

/-- State with two seen products, each holding a pending event queue. -/
def drainState : State :=
  ⟨[⟨"S1", [], 0, [Event.outOfStock "S1", Event.allocationRequired "x" "S1" 1]⟩,
    ⟨"S2", [], 0, [Event.outOfStock "S2"]⟩],
   ["S1", "S2"]⟩

/-- C6 witness: draining `drainState` yields S1's two events then S2's event,
and a second call yields nothing. -/
theorem c6_collect_new_events_drains_witness :
    (collect_new_events drainState).1
      = (drainState.seen.map (eventsOf drainState.repo)).flatten ∧
    (collect_new_events (collect_new_events drainState).2).1 = [] :=
  ⟨(c6_collect_new_events_drains drainState).1 (by decide),
   (c6_collect_new_events_drains drainState).2⟩

theorem deallocLoop_split (purchased : Int) :
    ∀ allocs : List OrderLine, ∃ k,
      (deallocLoop purchased allocs).1 = allocs.drop k ∧
      (deallocLoop purchased allocs).2 = allocs.take k := by
  intro allocs
  induction allocs with
  | nil => exact ⟨0, rfl, rfl⟩
  | cons l rest ih =>
      by_cases h : purchased - allocatedQty (l :: rest) < 0
      · obtain ⟨k, h1, h2⟩ := ih
        exact ⟨k + 1, by simp [deallocLoop, h, h1], by simp [deallocLoop, h, h2]⟩
      · exact ⟨0, by simp [deallocLoop, h], by simp [deallocLoop, h]⟩

theorem deallocLoop_nonneg (purchased : Int) (hp : 0 ≤ purchased) :
    ∀ allocs : List OrderLine,
      0 ≤ purchased - allocatedQty (deallocLoop purchased allocs).1 := by
  intro allocs
  induction allocs with
  | nil => simpa [deallocLoop, allocatedQty] using hp
  | cons l rest ih =>
      by_cases h : purchased - allocatedQty (l :: rest) < 0
      · simpa [deallocLoop, h] using ih
      · simpa [deallocLoop, h] using not_lt.mp h

theorem find?_updateBatch_self (ref : String) (f : Batch → Batch)
    (hf : ∀ b, (f b).reference = b.reference) :
    ∀ bs : List Batch,
      (updateBatch bs ref f).find? (fun c => c.reference == ref)
        = (bs.find? (fun c => c.reference == ref)).map f := by
  intro bs
  induction bs with
  | nil => rfl
  | cons b bs ih =>
      simp only [updateBatch]
      by_cases h : b.reference = ref
      · have hb : (b.reference == ref) = true := by simp [h]
        have hfb : ((f b).reference == ref) = true := by rw [hf]; exact hb
        simp [hb, hfb, List.find?_cons]
      · have hb : (b.reference == ref) = false := by simp [h]
        simp [hb, List.find?_cons, ih]

/-- The batch whose purchased quantity is reduced in the C3 counterexample:
one allocated line of quantity 5. -/
def shrinkBatch : Batch := ⟨"b1", "A", 10, none, [⟨"o1", "A", 5⟩]⟩

/-- Product owning `shrinkBatch`. -/
def shrinkProduct : Product := ⟨"A", [shrinkBatch], 0, []⟩

/-- C3 counterexample: reducing `shrinkBatch` (allocated total 5) to the
purchased quantity -2 satisfies the claim's hypothesis — the new quantity is
below the currently allocated total — and the deallocation loop does emit one
`AllocationRequired` event for the single deallocated line; but on completion
the batch's `available_quantity` is -2, which is not ≥ 0: once every
allocated line is gone a negative purchased quantity can never be resolved
back to a nonnegative availability. -/
theorem c3_counterexample :
    ((-2 : Int) < shrinkBatch.allocated_quantity) ∧
    shrinkProduct.change_batch_quantity "b1" (-2)
      = some ⟨"A", [⟨"b1", "A", -2, none, []⟩], 0,
          [Event.allocationRequired "o1" "A" 5]⟩ ∧
    ¬ (0 ≤ (Batch.mk "b1" "A" (-2) none []).available_quantity) :=
  ⟨by decide, by rfl, by decide⟩

/-- C3 (amended): for every product batch found by reference and every
**nonnegative** new purchased quantity, `Product.change_batch_quantity`
terminates (it is a total function returning a result), emits exactly one
`AllocationRequired` event per deallocated line — the appended events are the
image of the deallocated front segment of the allocation list — and on completion
the batch's `available_quantity` is ≥ 0. -/
theorem c3_amended_change_batch_quantity (p : Product) (ref : String)
    (qty : Int) (b : Batch) (hq : 0 ≤ qty)
    (hb : p.batches.find? (fun c => c.reference == ref) = some b) :
    ∃ p' k,
      p.change_batch_quantity ref qty = some p' ∧
      p'.events = p.events ++ (b.allocations.take k).map
        (fun l => Event.allocationRequired l.orderid l.sku l.qty) ∧
      p'.batches.find? (fun c => c.reference == ref)
        = some { b with purchased_quantity := qty, allocations := b.allocations.drop k } ∧
      0 ≤ ({ b with purchased_quantity := qty, allocations := b.allocations.drop k } : Batch).available_quantity := by
  obtain ⟨k, h1, h2⟩ := deallocLoop_split qty b.allocations
  have hcbq : p.change_batch_quantity ref qty
      = some { p with
          batches := updateBatch p.batches ref
            (fun c => { c with purchased_quantity := qty,
                               allocations := (deallocLoop qty b.allocations).1 }),
          events := p.events ++ (deallocLoop qty b.allocations).2.map
            (fun l => Event.allocationRequired l.orderid l.sku l.qty) } := by
    simp [Product.change_batch_quantity, hb]
  refine ⟨_, k, hcbq, ?_, ?_, ?_⟩
  · simp [h2]
  · show (updateBatch p.batches ref _).find? (fun c => c.reference == ref) = _
    rw [find?_updateBatch_self ref
      (fun c => { c with purchased_quantity := qty, allocations := (deallocLoop qty b.allocations).1 })
      (fun c => rfl), hb]
    simp [h1]
  · have := deallocLoop_nonneg qty hq b.allocations
    rw [h1] at this
    simpa [Batch.available_quantity, Batch.allocated_quantity] using this

/-- The batch of concrete scenario 5 of the spec: purchased 20, two allocated
lines of quantities 5 and 7. -/
def shrinkBatch2 : Batch := ⟨"b2", "B", 20, none, [⟨"p1", "B", 5⟩, ⟨"p2", "B", 7⟩]⟩

/-- Product owning `shrinkBatch2`. -/
def shrinkProduct2 : Product := ⟨"B", [shrinkBatch2], 3, []⟩

/-- C3 amended witness: reducing `shrinkBatch2` from 20 to 4 deallocates both
lines, emitting one `AllocationRequired` each, and ends with availability
≥ 0. -/
theorem c3_amended_change_batch_quantity_witness :
    ∃ p' k,
      shrinkProduct2.change_batch_quantity "b2" 4 = some p' ∧
      p'.events = shrinkProduct2.events ++ (shrinkBatch2.allocations.take k).map
        (fun l => Event.allocationRequired l.orderid l.sku l.qty) ∧
      p'.batches.find? (fun c => c.reference == "b2")
        = some { shrinkBatch2 with purchased_quantity := 4, allocations := shrinkBatch2.allocations.drop k } ∧
      0 ≤ ({ shrinkBatch2 with purchased_quantity := 4, allocations := shrinkBatch2.allocations.drop k } : Batch).available_quantity :=
  c3_amended_change_batch_quantity shrinkProduct2 "b2" 4 shrinkBatch2
    (by decide) (by rfl)

theorem allocate_reference (b : Batch) (l : OrderLine) :
    (b.allocate l).reference = b.reference := by
  unfold Batch.allocate
  split
  · split <;> rfl
  · rfl

theorem allocate_available (b : Batch) (l : OrderLine)
    (hca : b.can_allocate l = true) (hm : l ∉ b.allocations) :
    (b.allocate l).available_quantity = b.available_quantity - l.qty := by
  simp only [Batch.allocate, hca, if_true, hm, if_false]
  simp [Batch.available_quantity, Batch.allocated_quantity, allocatedQty]
  ring

/-- C8: allocation prefers the first batch in the preference order — a batch
with no eta sorts before any batch with an eta — so for a product holding two
same-SKU batches (in either insertion order), one in-stock and one with an
eta, and a fresh line either batch could satisfy, `Product.allocate` picks
the in-stock batch: its reference is returned, its `available_quantity`
drops by the line's quantity, and the eta batch is left unchanged. -/
theorem c8_prefers_in_stock (p : Product) (b1 b2 : Batch) (l : OrderLine)
    (d : Nat)
    (horder : p.batches = [b1, b2] ∨ p.batches = [b2, b1])
    (h1 : b1.eta = none) (h2 : b2.eta = some d)
    (href : b1.reference ≠ b2.reference)
    (hm : l ∉ b1.allocations)
    (hc1 : b1.can_allocate l = true) (_hc2 : b2.can_allocate l = true) :
    (p.allocate l).1 = some b1.reference ∧
    ((p.allocate l).2.batches.find? (fun c => c.reference == b1.reference)).map
        Batch.available_quantity = some (b1.available_quantity - l.qty) ∧
    ((p.allocate l).2.batches.find? (fun c => c.reference == b2.reference))
        = some b2 := by
  have hsort : sortBatches p.batches = [b1, b2] := by
    rcases horder with h | h <;> rw [h] <;>
      simp [sortBatches, insertByPref, Batch.preferLE, h1, h2]
  have hfind : (sortBatches p.batches).find? (fun b => b.can_allocate l)
      = some b1 := by
    rw [hsort]
    simp [List.find?_cons, hc1]
  have hall : p.allocate l
      = (some b1.reference,
         { p with
             batches := updateBatch p.batches b1.reference (fun c => c.allocate l),
             version_number := p.version_number + 1 }) := by
    simp [Product.allocate, hfind]
  have hr11 : ((b1.allocate l).reference == b1.reference) = true := by
    simp [allocate_reference]
  have hr12 : ((b1.allocate l).reference == b2.reference) = false := by
    simp [allocate_reference, href]
  have hr21 : (b2.reference == b1.reference) = false := by
    simp [Ne.symm href]
  have hr22 : (b2.reference == b2.reference) = true := by simp
  have hb11 : (b1.reference == b1.reference) = true := by simp
  refine ⟨by simp [hall], ?_, ?_⟩
  · rw [hall]
    rcases horder with h | h <;> rw [h]
    · simp [updateBatch, hb11, List.find?_cons, hr11,
        allocate_available b1 l hc1 hm]
    · simp [updateBatch, hr21, hb11, List.find?_cons, hr11,
        allocate_available b1 l hc1 hm]
  · rw [hall]
    rcases horder with h | h <;> rw [h]
    · simp [updateBatch, hb11, List.find?_cons, hr12, hr22]
    · simp [updateBatch, hr21, hb11, List.find?_cons, hr22]

/-- C8 witness: the `RETRO-CLOCK` scenario of
`chapter1/src/test_batches.py`: in-stock batch of 100 and shipment batch of
100; allocating a line of 10 leaves 90 in stock and the shipment at 100. -/
theorem c8_prefers_in_stock_witness :
    ((Product.mk "RETRO-CLOCK"
        [⟨"in-stock-batch", "RETRO-CLOCK", 100, none, []⟩,
         ⟨"shipment-batch", "RETRO-CLOCK", 100, some 1, []⟩] 0 []).allocate
        ⟨"oref", "RETRO-CLOCK", 10⟩).1 = some "in-stock-batch" ∧
    (((Product.mk "RETRO-CLOCK"
        [⟨"in-stock-batch", "RETRO-CLOCK", 100, none, []⟩,
         ⟨"shipment-batch", "RETRO-CLOCK", 100, some 1, []⟩] 0 []).allocate
        ⟨"oref", "RETRO-CLOCK", 10⟩).2.batches.find?
        (fun c => c.reference == "in-stock-batch")).map Batch.available_quantity
      = some 90 ∧
    (((Product.mk "RETRO-CLOCK"
        [⟨"in-stock-batch", "RETRO-CLOCK", 100, none, []⟩,
         ⟨"shipment-batch", "RETRO-CLOCK", 100, some 1, []⟩] 0 []).allocate
        ⟨"oref", "RETRO-CLOCK", 10⟩).2.batches.find?
        (fun c => c.reference == "shipment-batch"))
      = some ⟨"shipment-batch", "RETRO-CLOCK", 100, some 1, []⟩ := by
  simpa using c8_prefers_in_stock
    (Product.mk "RETRO-CLOCK"
      [⟨"in-stock-batch", "RETRO-CLOCK", 100, none, []⟩,
       ⟨"shipment-batch", "RETRO-CLOCK", 100, some 1, []⟩] 0 [])
    ⟨"in-stock-batch", "RETRO-CLOCK", 100, none, []⟩
    ⟨"shipment-batch", "RETRO-CLOCK", 100, some 1, []⟩
    ⟨"oref", "RETRO-CLOCK", 10⟩ 1 (Or.inl rfl) rfl rfl
    (by decide) (by decide) (by decide) (by decide)

example :
    (Batch.mk "b" "SMALL-TABLE" 20 (some 0) []).allocate ⟨"o", "SMALL-TABLE", 2⟩
      = Batch.mk "b" "SMALL-TABLE" 20 (some 0) [⟨"o", "SMALL-TABLE", 2⟩] := by
  decide

example :
    ((Batch.mk "b" "SMALL-TABLE" 20 (some 0) []).allocate
        ⟨"o", "SMALL-TABLE", 2⟩).available_quantity = 18 := by
  decide
